import Mathlib

/-!
Verification development for the `sannav` repository (two Python modules:
`json_maps_to_excel.py` and `login_test.py`).

The development shallowly embeds the data model and the operations of the two
modules:

* `PyVal` models the Python/JSON values flowing through the converter
  (None, bool, int, str, list, tuple, dict).
* Fallible Python code (code that can raise) is embedded as functions into
  `Except String _`, where the error string names the Python exception class.
* `rule_value`, `render_cell`, `descriptors`, the `_page`/`_rule_conv` tables,
  the `_write_report` sheet planning, `_get_input` and `psuedo_main` are
  translated from the source; the few facts taken from the spec rather than
  from code outside this repository (external `brcdapi`/`brcddb` helpers) are
  marked `Modelled from the spec:` in their doc comments.
-/

namespace Sannav

/-- Model of the Python values handled by `json_maps_to_excel.py`: the JSON
values of a SANnav MAPS export plus the tuples that the rendering code also
accepts.  `null` models Python `None` (both a JSON null and the result of a
failed `dict.get`). -/
inductive PyVal where
  | null
  | bool (b : Bool)
  | int (n : Int)
  | str (s : String)
  | list (l : List PyVal)
  | tuple (l : List PyVal)
  | dict (fields : List (String × PyVal))

/-- A single apostrophe, used to build the exact text of Python
`str(type(v))` without an apostrophe character in the source of this file. -/
def apos : String := String.singleton (Char.ofNat 39)

/-- Text of Python `str(type(v))` for each `PyVal` shape, as interpolated by
`_generic_list` (json_maps_to_excel.py line 96). -/
def typeName : PyVal → String
  | .null => "<class " ++ apos ++ "NoneType" ++ apos ++ ">"
  | .bool _ => "<class " ++ apos ++ "bool" ++ apos ++ ">"
  | .int _ => "<class " ++ apos ++ "int" ++ apos ++ ">"
  | .str _ => "<class " ++ apos ++ "str" ++ apos ++ ">"
  | .list _ => "<class " ++ apos ++ "list" ++ apos ++ ">"
  | .tuple _ => "<class " ++ apos ++ "tuple" ++ apos ++ ">"
  | .dict _ => "<class " ++ apos ++ "dict" ++ apos ++ ">"

/-- Embedding of Python `dict.get`: the value stored under the key, or `None`
when the key is absent.  Python dict keys are unique, so an association list
with first-match lookup is faithful. -/
def dictGet : List (String × PyVal) → String → PyVal
  | [], _ => .null
  | (k0, v) :: rest, key => if k0 = key then v else dictGet rest key

/-- True exactly on `PyVal.str` values. -/
def isStrB : PyVal → Bool
  | .str _ => true
  | _ => false

/-- True exactly on the `PyVal` shapes that are Python sequences
(str, list, tuple). -/
def isSeqB : PyVal → Bool
  | .str _ => true
  | .list _ => true
  | .tuple _ => true
  | _ => false

/-- Embedding of Python `', '.join(elements)`: joins the elements with the
separator when every element is a string, and raises `TypeError` (modelled as
`Except.error`) as soon as a non-string element is reached. -/
def joinComma : List PyVal → Except String String
  | [] => .ok ""
  | [v] =>
    match v with
    | .str s => .ok s
    | _ => .error "TypeError"
  | v :: rest =>
    match v with
    | .str s => (joinComma rest).map (fun t => s ++ ", " ++ t)
    | _ => .error "TypeError"

/-- Reference rendering of "the elements joined with a comma and a space",
used on the specification side of the theorems about `joinComma`. -/
def commaSep : List String → String
  | [] => ""
  | [s] => s
  | s :: rest => s ++ ", " ++ commaSep rest

/-- Embedding of `_place_holder` (json_maps_to_excel.py lines 77-85): the
identity conversion. -/
def place_holder (v : PyVal) : PyVal := v

/-- Embedding of `_generic_list` (json_maps_to_excel.py lines 88-96):
`return ', '.join(v) if isinstance(v, list) else 'NOT LIST (' + str(type(v)) + ')'`. -/
def generic_list (v : PyVal) : Except String PyVal :=
  match v with
  | .list l => (joinComma l).map PyVal.str
  | _ => .ok (.str ("NOT LIST (" ++ typeName v ++ ")"))

/-- The conversion functions that occur as `m` entries of the `_rule_conv`
table: `_place_holder` and `_generic_list` are the only two in the source. -/
inductive Conv where
  | place_holder
  | generic_list
deriving DecidableEq

/-- Application of a conversion function named in the `_rule_conv` table. -/
def applyConv : Conv → PyVal → Except String PyVal
  | .place_holder, v => .ok (place_holder v)
  | .generic_list, v => generic_list v

/-- Helper for `splitSlash`: scans the characters, cutting at every slash.
The accumulator holds the current segment reversed. -/
def splitSlashAux : List Char → List Char → List String
  | [], acc => [String.mk acc.reverse]
  | c :: rest, acc =>
    if c = '/' then String.mk acc.reverse :: splitSlashAux rest []
    else splitSlashAux rest (c :: acc)

/-- Embedding of Python `key.split('/')` as used by `_rule_value`
(json_maps_to_excel.py line 237).  Like Python `str.split`, it never returns
an empty list: splitting a slash-free string yields that one segment. -/
def splitSlash (s : String) : List String := splitSlashAux s.data []

/-- A flattened leaf descriptor: the fields of one of the leaf dictionaries of
`_rule_conv` that the claims depend on (`d` label, `c` column width, `m`
conversion), plus the slash-joined path `k` added by `_descriptors`.
`_rule_value` guards for a missing `k`, so `k` is optional here. -/
structure LeafD where
  d : Option String
  c : Option Nat
  m : Option Conv
  k : Option String
deriving DecidableEq

/-- Embedding of the path-walking loop of `_rule_value` (json_maps_to_excel.py
lines 238-240): `while len(kl) > 0: v0 = v0.get(kl.pop(0))`.  Each iteration
calls `.get` on the current value, which succeeds only on a dict (a missing
key yields `None`) and raises `AttributeError` on anything else — in
particular on the `None` produced by a previous missing segment. -/
def walk : List String → PyVal → Except String PyVal
  | [], v => .ok v
  | key :: rest, v =>
    match v with
    | .dict fields => walk rest (dictGet fields key)
    | _ => .error "AttributeError"

/-- Embedding of `_rule_value` (json_maps_to_excel.py lines 224-241): return
`None` when the descriptor has no key; otherwise walk the slash-split path
through the rule and, when an `m` conversion is present, apply it to the walk
result. -/
def rule_value (d : LeafD) (rule : PyVal) : Except String PyVal :=
  match d.k with
  | Option.none => .ok PyVal.null
  | some key =>
    match walk (splitSlash key) rule with
    | .error e => .error e
    | .ok v0 =>
      match d.m with
      | Option.none => .ok v0
      | some conv => applyConv conv v0

/-- Embedding of the cell-content computation of `_maps_page`
(json_maps_to_excel.py lines 273-279) applied to one projected value `v`:
`buf` stays `None` (an empty cell) for `None`, a boolean becomes the
checkmark glyph or the empty string, a list or tuple is joined with `', '`
(which raises `TypeError` on a non-string element), and anything else is
written unchanged. -/
def render_cell (v : PyVal) : Except String (Option PyVal) :=
  match v with
  | .null => .ok Option.none
  | .bool b => .ok (some (.str (if b then "√" else "")))
  | .list l =>
    match joinComma l with
    | .ok s => .ok (some (.str s))
    | .error e => .error e
  | .tuple l =>
    match joinComma l with
    | .ok s => .ok (some (.str s))
    | .error e => .error e
  | v0 => .ok (some v0)

/-- Composition performed per descriptor and rule by `_maps_page`
(json_maps_to_excel.py lines 274-280): project with `_rule_value`, then
compute the cell content. -/
def renderField (d : LeafD) (rule : PyVal) : Except String (Option PyVal) :=
  match rule_value d rule with
  | .error e => .error e
  | .ok v => render_cell v

/-- Decides, for the conversions of the `_rule_conv` table, whether applying
the conversion to a value returns normally: `_generic_list` raises exactly on
a list containing a non-string, `_place_holder` never raises. -/
def convOk : Option Conv → PyVal → Bool
  | some .generic_list, .list l => l.all isStrB
  | _, _ => true

/-- Decides whether `_rule_value` returns normally on a descriptor and rule:
either the descriptor has no key, or the path walk stays inside dicts and the
declared conversion (if any) accepts the walked value. -/
def projectionDefined (d : LeafD) (rule : PyVal) : Bool :=
  match d.k with
  | Option.none => true
  | some key =>
    match walk (splitSlash key) rule with
    | .error _ => false
    | .ok v0 => convOk d.m v0

/-- Model of one dictionary of the static `_rule_conv` metadata table
(json_maps_to_excel.py lines 109-153): the fields the traversal and the
claims depend on (`d` label, `c` column width, `m` conversion, the explicit
child-order list `o`) plus the dict-valued children.  Non-dict entries
(labels, widths, alignment objects) are skipped by `_descriptors`'s
`isinstance(d, dict)` test, so only dict-valued children are modelled as
children; a key named in `o` but mapped to a non-dict behaves exactly like a
missing key. -/
inductive DNode where
  | mk (d : Option String) (c : Option Nat) (m : Option Conv) (o : List String)
      (children : List (String × DNode))

/-- Label field of a descriptor dictionary. -/
def DNode.dF : DNode → Option String
  | .mk d _ _ _ _ => d

/-- Column-width field of a descriptor dictionary. -/
def DNode.cF : DNode → Option Nat
  | .mk _ c _ _ _ => c

/-- Conversion field of a descriptor dictionary. -/
def DNode.mF : DNode → Option Conv
  | .mk _ _ m _ _ => m

/-- Explicit child-order list `o` of a descriptor dictionary. -/
def DNode.oF : DNode → List String
  | .mk _ _ _ o _ => o

/-- Dict-valued children of a descriptor dictionary. -/
def DNode.childrenF : DNode → List (String × DNode)
  | .mk _ _ _ _ ch => ch

/-- Lookup of a named dict-valued child: models `d = obj.get(k)` followed by
the `isinstance(d, dict)` test of `_descriptors`. -/
def lookupChild : List (String × DNode) → String → Option DNode
  | [], _ => Option.none
  | (k0, d) :: rest, key => if k0 = key then some d else lookupChild rest key

theorem lookupChild_sizeOf (children : List (String × DNode)) (key : String) (d : DNode)
    (h : lookupChild children key = some d) : sizeOf d < sizeOf children := by
  induction children with
  | nil => simp [lookupChild] at h
  | cons hd tl ih =>
    obtain ⟨k0, d0⟩ := hd
    simp only [lookupChild] at h
    split at h
    · cases h; simp; omega
    · have := ih h; simp; omega

/-- Loop body of `_descriptors` (json_maps_to_excel.py lines 210-221): for
each key of the `o` list in order, skip it unless it names a dict; emit a
copy of a dict that defines a column width `c`, annotated with its full path
`base_ref + k`; otherwise recurse into the dict with the extended path
prefix.  The two list arguments are the `o` list still to process and the
children of the dictionary being traversed. -/
def descriptorsGo : List String → List (String × DNode) → String → List LeafD
  | [], _, _ => []
  | key :: ks, children, base_ref =>
    (match h : lookupChild children key with
     | Option.none => []
     | some dn =>
       match dn.cF with
       | some _ => [⟨dn.dF, dn.cF, dn.mF, some (base_ref ++ key)⟩]
       | Option.none => descriptorsGo dn.oF dn.childrenF (base_ref ++ key ++ "/")) ++
    descriptorsGo ks children base_ref
termination_by ks children base => (sizeOf children, ks.length)
decreasing_by
  all_goals simp_wf
  · have h1 := lookupChild_sizeOf children key dn h
    have h2 : sizeOf dn.childrenF < sizeOf dn := by
      cases dn with
      | mk d c m o ch => simp [DNode.childrenF] <;> omega
    exact Prod.Lex.left _ _ (Nat.lt_trans h2 h1)
  · exact Prod.Lex.right _ (Nat.lt_succ_self _)

/-- Embedding of `_descriptors(obj, base_ref)` (json_maps_to_excel.py lines
200-221). -/
def descriptors (obj : DNode) (base_ref : String) : List LeafD :=
  descriptorsGo obj.oF obj.childrenF base_ref

/-- Shorthand for a leaf dictionary of the `_rule_conv` table: label `d`,
column width `c`, no conversion. -/
def leafN (d : String) (c : Nat) : DNode := .mk (some d) (some c) Option.none [] []

/-- Shorthand for a leaf dictionary of the `_rule_conv` table carrying an `m`
conversion. -/
def leafM (d : String) (c : Nat) (m : Conv) : DNode := .mk (some d) (some c) (some m) [] []

/-- Embedding of the static `_rule_conv` table (json_maps_to_excel.py lines
109-153), keeping every key of every `o` list, every `d` label, every `c`
column width and every `m` conversion of the source. -/
def rule_conv : DNode :=
  .mk Option.none Option.none Option.none
    ["groupName", "groupType", "isDefaultGroup", "ruleName", "ruleType", "isDefaultRule",
     "baseRuleName", "severityType", "quietTime", "measureDetails"]
    [("groupName", leafN "Group Name" 32),
     ("groupType", leafM "Group Type" 5 .place_holder),
     ("isDefaultGroup", leafN "Default Group" 5),
     ("ruleName", leafN "Rule Name" 38),
     ("ruleType", leafM "Rule Type" 5 .place_holder),
     ("isDefaultRule", leafN "Default Rule" 5),
     ("baseRuleName", leafN "Base Rule Name" 32),
     ("severityType", leafM "Severity Type" 5 .place_holder),
     ("quietTime", leafN "Quiet Time" 8),
     ("measureDetails", .mk Option.none Option.none Option.none
       ["measureId", "thresholdDtls", "timeBaseDtls", "swActions"]
       [("measureId", leafN "Measure" 24),
        ("thresholdDtls", .mk Option.none Option.none Option.none
          ["operator", "thresholdList", "thresholdValue"]
          [("operator", leafM "Operator" 5 .place_holder),
           ("thresholdList", leafM "Threshold List" 12 .generic_list),
           ("thresholdValue", leafN "Threshold Value" 18)]),
        ("timeBaseDtls", .mk Option.none Option.none Option.none
          ["timeBaseValue"]
          [("timeBaseValue", leafN "Time Base Value" 5)]),
        ("swActions", .mk Option.none Option.none Option.none
          ["rasLogEvent", "snmpTrap", "email", "portDecommission", "fence",
           "sfpStatusMarginal", "fms", "sddq", "unQuarantine", "toggle",
           "switchStatusCritical", "switchStatusMarginal", "reBalance", "fpin"]
          [("rasLogEvent", leafN "RAS Log" 5),
           ("snmpTrap", leafN "SNMP Trap" 5),
           ("email", leafN "email" 5),
           ("portDecommission", leafN "Decommission" 5),
           ("fence", leafN "Fence" 5),
           ("sfpStatusMarginal", leafN "SFP Marginal" 5),
           ("fms", leafN "FMS" 5),
           ("sddq", leafN "SDDQ" 5),
           ("unQuarantine", leafN "Un-quarantine" 5),
           ("toggle", leafN "Toggle" 5),
           ("switchStatusCritical", leafN "Switch Critical" 5),
           ("switchStatusMarginal", leafN "Switch Marginal" 5),
           ("reBalance", leafN "Re-balance" 5),
           ("fpin", leafN "FPIN" 5)])])]

/-- True on the values that `_maps_page` writes unchanged: neither `None`,
nor a boolean, nor a list, nor a tuple. -/
def plainValue : PyVal → Bool
  | .null => false
  | .bool _ => false
  | .list _ => false
  | .tuple _ => false
  | _ => true

/-- The flattened leaf for `measureDetails/measureId`, as produced by
`_descriptors` from `_rule_conv`. -/
def measureIdLeaf : LeafD := ⟨some "Measure", some 24, Option.none, some "measureDetails/measureId"⟩

/-- The flattened leaf for `measureDetails/thresholdDtls/thresholdList`, the
one descriptor of `_rule_conv` that declares the `_generic_list` conversion. -/
def thresholdListLeaf : LeafD :=
  ⟨some "Threshold List", some 12, some .generic_list, some "measureDetails/thresholdDtls/thresholdList"⟩

/-- Closed evaluation of the flattening of the `_rule_conv` table: the 28
leaf descriptors in depth-first pre-order, each annotated with its
slash-joined path. -/
theorem rule_conv_descriptors_eval :
    descriptors rule_conv "" =
    [⟨some "Group Name", some 32, Option.none, some "groupName"⟩,
     ⟨some "Group Type", some 5, some .place_holder, some "groupType"⟩,
     ⟨some "Default Group", some 5, Option.none, some "isDefaultGroup"⟩,
     ⟨some "Rule Name", some 38, Option.none, some "ruleName"⟩,
     ⟨some "Rule Type", some 5, some .place_holder, some "ruleType"⟩,
     ⟨some "Default Rule", some 5, Option.none, some "isDefaultRule"⟩,
     ⟨some "Base Rule Name", some 32, Option.none, some "baseRuleName"⟩,
     ⟨some "Severity Type", some 5, some .place_holder, some "severityType"⟩,
     ⟨some "Quiet Time", some 8, Option.none, some "quietTime"⟩,
     measureIdLeaf,
     ⟨some "Operator", some 5, some .place_holder, some "measureDetails/thresholdDtls/operator"⟩,
     thresholdListLeaf,
     ⟨some "Threshold Value", some 18, Option.none, some "measureDetails/thresholdDtls/thresholdValue"⟩,
     ⟨some "Time Base Value", some 5, Option.none, some "measureDetails/timeBaseDtls/timeBaseValue"⟩,
     ⟨some "RAS Log", some 5, Option.none, some "measureDetails/swActions/rasLogEvent"⟩,
     ⟨some "SNMP Trap", some 5, Option.none, some "measureDetails/swActions/snmpTrap"⟩,
     ⟨some "email", some 5, Option.none, some "measureDetails/swActions/email"⟩,
     ⟨some "Decommission", some 5, Option.none, some "measureDetails/swActions/portDecommission"⟩,
     ⟨some "Fence", some 5, Option.none, some "measureDetails/swActions/fence"⟩,
     ⟨some "SFP Marginal", some 5, Option.none, some "measureDetails/swActions/sfpStatusMarginal"⟩,
     ⟨some "FMS", some 5, Option.none, some "measureDetails/swActions/fms"⟩,
     ⟨some "SDDQ", some 5, Option.none, some "measureDetails/swActions/sddq"⟩,
     ⟨some "Un-quarantine", some 5, Option.none, some "measureDetails/swActions/unQuarantine"⟩,
     ⟨some "Toggle", some 5, Option.none, some "measureDetails/swActions/toggle"⟩,
     ⟨some "Switch Critical", some 5, Option.none, some "measureDetails/swActions/switchStatusCritical"⟩,
     ⟨some "Switch Marginal", some 5, Option.none, some "measureDetails/swActions/switchStatusMarginal"⟩,
     ⟨some "Re-balance", some 5, Option.none, some "measureDetails/swActions/reBalance"⟩,
     ⟨some "FPIN", some 5, Option.none, some "measureDetails/swActions/fpin"⟩] := by
  simp [descriptors, descriptorsGo, rule_conv, leafN, leafM, lookupChild,
    DNode.oF, DNode.childrenF, DNode.cF, DNode.dF, DNode.mF, measureIdLeaf, thresholdListLeaf]

theorem joinComma_ok_iff (l : List PyVal) :
    (∃ s, joinComma l = .ok s) ↔ l.all isStrB = true := by
  induction l with
  | nil => simp [joinComma]
  | cons x xs ih =>
    cases xs with
    | nil =>
      cases x <;> simp [joinComma, isStrB]
    | cons y ys =>
      cases x with
      | str s =>
        have hred : joinComma (PyVal.str s :: y :: ys) =
            (joinComma (y :: ys)).map (fun t => s ++ ", " ++ t) := rfl
        have hstr : isStrB (PyVal.str s) = true := rfl
        rw [hred, List.all_cons, hstr, Bool.true_and, ← ih]
        constructor
        · rintro ⟨t, ht⟩
          cases h : joinComma (y :: ys) with
          | ok u => exact ⟨u, rfl⟩
          | error e => rw [h] at ht; exact absurd ht (by simp [Except.map])
        · rintro ⟨u, hu⟩
          exact ⟨s ++ ", " ++ u, by rw [hu]; rfl⟩
      | null => simp [joinComma, isStrB]
      | bool b => simp [joinComma, isStrB]
      | int n => simp [joinComma, isStrB]
      | list l2 => simp [joinComma, isStrB]
      | tuple l2 => simp [joinComma, isStrB]
      | dict f => simp [joinComma, isStrB]

theorem joinComma_map_str (ls : List String) :
    joinComma (ls.map PyVal.str) = .ok (commaSep ls) := by
  induction ls with
  | nil => rfl
  | cons s rest ih =>
    cases rest with
    | nil => rfl
    | cons t ts =>
      simp only [List.map, joinComma, commaSep]
      rw [show ((t :: ts).map PyVal.str) = PyVal.str t :: ts.map PyVal.str from rfl] at ih
      rw [ih]
      rfl

theorem joinComma_error_of_nonstr (l : List PyVal) (x : PyVal) (hx : x ∈ l)
    (hs : isStrB x = false) : ∃ e, joinComma l = .error e := by
  cases h : joinComma l with
  | error e => exact ⟨e, rfl⟩
  | ok s =>
    have hall : l.all isStrB = true := (joinComma_ok_iff l).mp ⟨s, h⟩
    rw [List.all_eq_true] at hall
    have := hall x hx
    rw [hs] at this
    exact absurd this (by simp)

/-- Rule record giving the `thresholdList` descriptor a present path whose
terminal key is absent: the walk reaches the `thresholdDtls` dict and the
final `get` yields `None`. -/
def thresholdMissingRule : PyVal :=
  .dict [("measureDetails", .dict [("thresholdDtls", .dict [])])]

/-- Rule record storing the boolean `true` at the `thresholdList` path. -/
def boolThresholdRule : PyVal :=
  .dict [("measureDetails", .dict [("thresholdDtls", .dict [("thresholdList", .bool true)])])]

/-- C1 (amended): projection returns a value, a converted value, or "no
value" exactly when the slash-path walk stays inside dictionaries and the
declared conversion (if any) accepts the walked value; otherwise — in
particular whenever an intermediate path segment is absent, so that the next
`.get` is called on `None` — `_rule_value` raises instead of returning "no
value". -/
theorem c1_rule_value_total_iff (d : LeafD) (rule : PyVal) :
    (∃ v, rule_value d rule = .ok v) ↔ projectionDefined d rule = true := by
  cases hk : d.k with
  | none => simp [rule_value, projectionDefined, hk]
  | some key =>
    cases hw : walk (splitSlash key) rule with
    | error e => simp [rule_value, projectionDefined, hk, hw]
    | ok v0 =>
      cases hm : d.m with
      | none => simp [rule_value, projectionDefined, hk, hw, hm, convOk]
      | some conv =>
        cases conv with
        | place_holder =>
          simp [rule_value, projectionDefined, hk, hw, hm, convOk, applyConv, place_holder]
        | generic_list =>
          cases v0 with
          | list l =>
            simp only [rule_value, projectionDefined, hk, hw, hm, convOk, applyConv, generic_list]
            rw [show (l.all isStrB = true) ↔ (∃ s, joinComma l = .ok s) from (joinComma_ok_iff l).symm]
            cases h : joinComma l with
            | ok s => simp [Except.map, h]
            | error e => simp [Except.map, h]
          | null => simp [rule_value, projectionDefined, hk, hw, hm, convOk, applyConv, generic_list]
          | bool b => simp [rule_value, projectionDefined, hk, hw, hm, convOk, applyConv, generic_list]
          | int n => simp [rule_value, projectionDefined, hk, hw, hm, convOk, applyConv, generic_list]
          | str s => simp [rule_value, projectionDefined, hk, hw, hm, convOk, applyConv, generic_list]
          | tuple l => simp [rule_value, projectionDefined, hk, hw, hm, convOk, applyConv, generic_list]
          | dict f => simp [rule_value, projectionDefined, hk, hw, hm, convOk, applyConv, generic_list]

/-- C1 counterexample: the flattened `measureDetails/measureId` descriptor
projected into the empty rule record does not return "no value": the first
segment's `get` yields `None` and the second iteration calls `.get` on
`None`, raising `AttributeError` — an unhandled failure, refuting totality of
projection as claimed. -/
theorem c1_rule_value_total_cex :
    measureIdLeaf ∈ descriptors rule_conv "" ∧
    rule_value measureIdLeaf (PyVal.dict []) = .error "AttributeError" := by
  refine ⟨?_, rfl⟩
  rw [rule_conv_descriptors_eval]
  decide

/-- C2 (amended): when the descriptor carries a conversion function, the
conversion is applied to the walk result unconditionally — including when the
walk yields "no value": `_rule_value` returns `m(None)`, not `None`. -/
theorem c2_conversion_hits_missing (d : LeafD) (rule : PyVal) (key : String) (conv : Conv)
    (hk : d.k = some key) (hm : d.m = some conv)
    (hw : walk (splitSlash key) rule = .ok PyVal.null) :
    rule_value d rule = applyConv conv PyVal.null := by
  simp [rule_value, hk, hw, hm]

/-- Witness for the amended C2 theorem at the `thresholdList` descriptor and
a rule whose `thresholdList` key is absent. -/
theorem c2_conversion_hits_missing_witness :
    thresholdListLeaf.k = some "measureDetails/thresholdDtls/thresholdList" ∧
    walk (splitSlash "measureDetails/thresholdDtls/thresholdList") thresholdMissingRule =
      .ok PyVal.null ∧
    rule_value thresholdListLeaf thresholdMissingRule = applyConv Conv.generic_list PyVal.null :=
  ⟨rfl, rfl,
    c2_conversion_hits_missing thresholdListLeaf thresholdMissingRule
      "measureDetails/thresholdDtls/thresholdList" Conv.generic_list rfl rfl rfl⟩

/-- C2 counterexample: for the `thresholdList` descriptor (which declares the
`_generic_list` conversion) and a rule in which the walk yields "no value",
projection does not return "no value": the conversion is invoked on `None`
and produces the `NOT LIST` diagnostic string. -/
theorem c2_conversion_skipped_cex :
    thresholdListLeaf ∈ descriptors rule_conv "" ∧
    walk (splitSlash "measureDetails/thresholdDtls/thresholdList") thresholdMissingRule =
      .ok PyVal.null ∧
    rule_value thresholdListLeaf thresholdMissingRule =
      .ok (.str ("NOT LIST (<class " ++ apos ++ "NoneType" ++ apos ++ ">)")) ∧
    rule_value thresholdListLeaf thresholdMissingRule ≠ .ok PyVal.null := by
  refine ⟨?_, rfl, rfl, ?_⟩
  · rw [rule_conv_descriptors_eval]; decide
  · intro hEq
    exact PyVal.noConfusion (Except.ok.inj hEq)

/-- C3 (amended): a boolean `true` at the descriptor's path renders as the
checkmark glyph and `false` as the empty string whenever the descriptor
declares no conversion or the identity conversion `_place_holder`; the
boolean test of `_maps_page` runs on the converted value, so this does not
extend to the `_generic_list` conversion. -/
theorem c3_bool_renders_checkmark (d : LeafD) (rule : PyVal) (key : String) (b : Bool)
    (hk : d.k = some key)
    (hw : walk (splitSlash key) rule = .ok (PyVal.bool b))
    (hm : d.m = Option.none ∨ d.m = some Conv.place_holder) :
    renderField d rule = .ok (some (.str (if b then "√" else ""))) := by
  rcases hm with hm | hm <;>
    simp [renderField, rule_value, render_cell, hk, hw, hm, applyConv, place_holder]

/-- Witness for the amended C3 theorem: the `isDefaultRule` descriptor over a
rule whose `isDefaultRule` value is `true` renders the checkmark glyph. -/
theorem c3_bool_renders_checkmark_witness :
    walk (splitSlash "isDefaultRule") (PyVal.dict [("isDefaultRule", .bool true)]) =
      .ok (.bool true) ∧
    renderField ⟨some "Default Rule", some 5, Option.none, some "isDefaultRule"⟩
      (PyVal.dict [("isDefaultRule", .bool true)]) = .ok (some (.str "√")) := by
  refine ⟨rfl, ?_⟩
  exact c3_bool_renders_checkmark
    ⟨some "Default Rule", some 5, Option.none, some "isDefaultRule"⟩
    (PyVal.dict [("isDefaultRule", .bool true)]) "isDefaultRule" true rfl rfl (Or.inl rfl)

/-- C3 counterexample: for the `thresholdList` descriptor, which declares the
`_generic_list` conversion, a boolean `true` at the path renders as the
`NOT LIST` diagnostic, not as the checkmark glyph — the rendering is not
independent of the declared conversion. -/
theorem c3_bool_renders_checkmark_cex :
    thresholdListLeaf ∈ descriptors rule_conv "" ∧
    walk (splitSlash "measureDetails/thresholdDtls/thresholdList") boolThresholdRule =
      .ok (.bool true) ∧
    renderField thresholdListLeaf boolThresholdRule =
      .ok (some (.str ("NOT LIST (<class " ++ apos ++ "bool" ++ apos ++ ">)"))) ∧
    renderField thresholdListLeaf boolThresholdRule ≠ .ok (some (.str "√")) := by
  refine ⟨?_, rfl, rfl, ?_⟩
  · rw [rule_conv_descriptors_eval]; decide
  · intro hEq
    have h1 := Option.some.inj (Except.ok.inj hEq)
    have h2 := PyVal.str.inj h1
    exact absurd h2 (by decide)

/-- C8 (amended): `_generic_list` joins a list of strings with a comma and a
space; on non-list input — in particular on every non-sequence value — it
returns the `NOT LIST` diagnostic naming the actual type; and it raises a
`TypeError` (rather than returning) exactly when handed a list containing a
non-string, because the join rejects non-string elements. -/
theorem c8_generic_list_behavior :
    (∀ ls : List String, generic_list (.list (ls.map PyVal.str)) = .ok (.str (commaSep ls))) ∧
    (∀ v : PyVal, isSeqB v = false →
      generic_list v = .ok (.str ("NOT LIST (" ++ typeName v ++ ")"))) ∧
    (∀ (l : List PyVal) (x : PyVal), x ∈ l → isStrB x = false →
      ∃ e, generic_list (.list l) = .error e) := by
  refine ⟨?_, ?_, ?_⟩
  · intro ls
    simp [generic_list, joinComma_map_str, Except.map]
  · intro v hv
    cases v with
    | str s => simp [isSeqB] at hv
    | list l => simp [isSeqB] at hv
    | tuple l => simp [isSeqB] at hv
    | null => rfl
    | bool b => rfl
    | int n => rfl
    | dict f => rfl
  · intro l x hx hs
    obtain ⟨e, he⟩ := joinComma_error_of_nonstr l x hx hs
    exact ⟨e, by simp [generic_list, he, Except.map]⟩

/-- Witness for the amended C8 theorem, applying each clause at a concrete
input: a list of strings is joined, a dict yields the diagnostic naming the
dict type, and a list holding an integer raises. -/
theorem c8_generic_list_behavior_witness :
    generic_list (.list [PyVal.str "a", PyVal.str "b"]) = .ok (.str "a, b") ∧
    generic_list (.dict []) =
      .ok (.str ("NOT LIST (<class " ++ apos ++ "dict" ++ apos ++ ">)")) ∧
    ∃ e, generic_list (.list [PyVal.int 3]) = .error e :=
  ⟨c8_generic_list_behavior.1 ["a", "b"],
   c8_generic_list_behavior.2.1 (.dict []) rfl,
   c8_generic_list_behavior.2.2 [PyVal.int 3] (PyVal.int 3) (by simp) rfl⟩

/-- C8 counterexample: `_generic_list` does raise — on a list containing a
non-string the join raises `TypeError` — and a tuple of strings (a sequence
of strings) is not joined but produces the diagnostic placeholder, because
the code tests `isinstance(v, list)` only. -/
theorem c8_generic_list_cex :
    generic_list (.list [PyVal.int 1]) = .error "TypeError" ∧
    generic_list (.tuple [PyVal.str "a", PyVal.str "b"]) =
      .ok (.str ("NOT LIST (<class " ++ apos ++ "tuple" ++ apos ++ ">)")) :=
  ⟨rfl, rfl⟩

/-- C10 (amended): during row rendering, a projected list or tuple of strings
is written as its elements joined with a comma and a space, regardless of the
descriptor's conversion; a projected value that is neither `None`, nor a
boolean, nor a list or tuple is written unchanged; a missing value (`None`)
leaves the cell empty; and a list containing a non-string makes the join
raise `TypeError` instead of writing the cell. -/
theorem c10_render_cell_behavior :
    (∀ ls : List String, render_cell (.list (ls.map PyVal.str)) = .ok (some (.str (commaSep ls)))) ∧
    (∀ ls : List String, render_cell (.tuple (ls.map PyVal.str)) = .ok (some (.str (commaSep ls)))) ∧
    (∀ v : PyVal, plainValue v = true → render_cell v = .ok (some v)) ∧
    render_cell PyVal.null = .ok Option.none ∧
    (∀ (l : List PyVal) (x : PyVal), x ∈ l → isStrB x = false →
      ∃ e, render_cell (.list l) = .error e) := by
  refine ⟨?_, ?_, ?_, rfl, ?_⟩
  · intro ls
    simp [render_cell, joinComma_map_str]
  · intro ls
    simp [render_cell, joinComma_map_str]
  · intro v hv
    cases v with
    | null => simp [plainValue] at hv
    | bool b => simp [plainValue] at hv
    | list l => simp [plainValue] at hv
    | tuple l => simp [plainValue] at hv
    | int n => rfl
    | str s => rfl
    | dict f => rfl
  · intro l x hx hs
    obtain ⟨e, he⟩ := joinComma_error_of_nonstr l x hx hs
    exact ⟨e, by simp [render_cell, he]⟩

/-- Witness for the amended C10 theorem, applying each clause at a concrete
projected value. -/
theorem c10_render_cell_behavior_witness :
    render_cell (.list [PyVal.str "x", PyVal.str "y"]) = .ok (some (.str "x, y")) ∧
    render_cell (.tuple [PyVal.str "x"]) = .ok (some (.str "x")) ∧
    render_cell (.int 9) = .ok (some (.int 9)) ∧
    render_cell PyVal.null = .ok Option.none ∧
    ∃ e, render_cell (.list [PyVal.int 7]) = .error e :=
  ⟨c10_render_cell_behavior.1 ["x", "y"],
   c10_render_cell_behavior.2.1 ["x"],
   c10_render_cell_behavior.2.2.1 (.int 9) rfl,
   c10_render_cell_behavior.2.2.2.1,
   c10_render_cell_behavior.2.2.2.2 [PyVal.int 7] (PyVal.int 7) (by simp) rfl⟩

/-- C10 counterexample: a projected list holding a non-string is not written
as a joined string — the join raises `TypeError`, both at the cell level and
through the full per-descriptor rendering of `_maps_page`. -/
theorem c10_render_cell_cex :
    render_cell (.list [PyVal.int 7]) = .error "TypeError" ∧
    renderField ⟨some "Quiet Time", some 8, Option.none, some "quietTime"⟩
      (PyVal.dict [("quietTime", .list [PyVal.int 7])]) = .error "TypeError" :=
  ⟨rfl, rfl⟩

/-- Parent keys joined by a slash, the path format the specification
prescribes for flattened leaf descriptors. -/
def joinPath : List String → String
  | [] => ""
  | [key] => key
  | key :: ks => key ++ "/" ++ joinPath ks

/-- Base-reference string accumulated by `_descriptors` along a list of
ancestor keys: each ancestor key followed by a slash. -/
def baseRefOf : List String → String
  | [] => ""
  | key :: ks => key ++ "/" ++ baseRefOf ks

theorem baseRefOf_append_key : ∀ (anc : List String) (key : String),
    baseRefOf anc ++ key = joinPath (anc ++ [key])
  | [], key => by simp [baseRefOf, joinPath, String.empty_append]
  | [a], key => by
    show (a ++ "/" ++ "") ++ key = a ++ "/" ++ key
    rw [String.append_empty]
  | a :: b :: rest, key => by
    have ih := baseRefOf_append_key (b :: rest) key
    show (a ++ "/" ++ baseRefOf (b :: rest)) ++ key = joinPath (a :: ((b :: rest) ++ [key]))
    calc (a ++ "/" ++ baseRefOf (b :: rest)) ++ key
        = a ++ "/" ++ (baseRefOf (b :: rest) ++ key) := by
          rw [String.append_assoc, String.append_assoc]
      _ = a ++ "/" ++ joinPath ((b :: rest) ++ [key]) := by rw [ih]
      _ = joinPath (a :: ((b :: rest) ++ [key])) := rfl

theorem baseRefOf_snoc : ∀ (anc : List String) (key : String),
    baseRefOf anc ++ key ++ "/" = baseRefOf (anc ++ [key])
  | [], key => by
    show ("" ++ key) ++ "/" = key ++ "/" ++ ""
    rw [String.empty_append, String.append_empty]
  | a :: rest, key => by
    have ih := baseRefOf_snoc rest key
    show (a ++ "/" ++ baseRefOf rest) ++ key ++ "/" = a ++ "/" ++ baseRefOf (rest ++ [key])
    rw [← ih]
    simp [String.append_assoc]

/-- Rendering of the specification's flattening algorithm, written from the
spec's own words: a depth-first pre-order traversal that follows the explicit
child-order list `o` at every level, classifies a node as a leaf exactly when
it defines a column width, otherwise recurses into each named child
accumulating the ancestor keys, and annotates each emitted leaf with its full
path — the parent keys joined by a slash. -/
def specFlattenGo : List String → List (String × DNode) → List String → List LeafD
  | [], _, _ => []
  | key :: ks, children, ancestors =>
    (match h : lookupChild children key with
     | Option.none => []
     | some dn =>
       if (dn.cF).isSome then [⟨dn.dF, dn.cF, dn.mF, some (joinPath (ancestors ++ [key]))⟩]
       else specFlattenGo dn.oF dn.childrenF (ancestors ++ [key])) ++
    specFlattenGo ks children ancestors
termination_by ks children anc => (sizeOf children, ks.length)
decreasing_by
  all_goals simp_wf
  · have h1 := lookupChild_sizeOf children key dn h
    have h2 : sizeOf dn.childrenF < sizeOf dn := by
      cases dn with
      | mk d c m o ch => simp [DNode.childrenF] <;> omega
    exact Prod.Lex.left _ _ (Nat.lt_trans h2 h1)
  · exact Prod.Lex.right _ (Nat.lt_succ_self _)

/-- Specification-side flattening of a descriptor tree. -/
def specFlatten (obj : DNode) : List LeafD := specFlattenGo obj.oF obj.childrenF []

theorem descriptorsGo_eq_specGo (ks : List String) (children : List (String × DNode))
    (anc : List String) :
    descriptorsGo ks children (baseRefOf anc) = specFlattenGo ks children anc := by
  induction ks, children, anc using specFlattenGo.induct with
  | case1 children anc =>
    simp [descriptorsGo, specFlattenGo]
  | case2 key ks children ancestors ihchild ihtail =>
    simp only [descriptorsGo, specFlattenGo]
    rw [ihtail]
    congr 1
    split
    · rfl
    · rename_i dn heq
      cases hc : dn.cF with
      | some c0 =>
        simp only [hc, Option.isSome_some, if_true]
        rw [baseRefOf_append_key]
      | none =>
        simp only [hc, Option.isSome_none, Bool.false_eq_true, if_false]
        rw [baseRefOf_snoc]
        exact ihchild dn heq (by simp [hc])

/-- C4 statement. -/
theorem c4_descriptors_eq_specFlatten (obj : DNode) :
    descriptors obj "" = specFlatten obj := by
  have h := descriptorsGo_eq_specGo obj.oF obj.childrenF []
  simpa [descriptors, specFlatten, baseRefOf] using h

/-- Exit statuses of the login probe.  Modelled from the spec: the constants
`EXIT_STATUS_OK` and `EXIT_STATUS_API_ERROR` live in the external
`brcddb.brcddb_common` module; the spec's exit-code taxonomy for the login
probe names three distinct statuses — success, API error (login failed) and a
generic error (logout failed, returned as the literal `-1` in the source).
The named statuses are distinct constructors and a literal numeric return is
carried by `ret`. -/
inductive ExitStatus where
  | ok
  | api_error
  | ret (n : Int)
deriving DecidableEq

/-- The calls the login probe makes into the external `sannav_auth` library. -/
inductive ProbeCall where
  | login
  | logout
deriving DecidableEq

/-- Embedding of `psuedo_main` of login_test.py (lines 87-125), instrumented
with the sequence of auth calls performed.  The booleans are the outcomes of
`sannav_auth.is_error` on the login session and on the logout response; on a
login error the function returns `EXIT_STATUS_API_ERROR` before any logout
call, on a logout error it returns the literal `-1`, and otherwise
`EXIT_STATUS_OK`. -/
def psuedo_main (login_is_error logout_is_error : Bool) : List ProbeCall × ExitStatus :=
  let calls := [ProbeCall.login]
  if login_is_error then (calls, .api_error)
  else
    let calls := calls ++ [ProbeCall.logout]
    if logout_is_error then (calls, .ret (-1))
    else (calls, .ok)

/-- C5: a failed credential exchange short-circuits the probe — no logout is
attempted — and exits with the API-error status; a successful login followed
by a failed logout exits with the generic error status (the literal `-1`),
which is distinct from the API-error status; a successful login and logout
exits with the success status. -/
theorem c5_login_probe_exit_codes :
    (∀ logout_is_error : Bool,
      psuedo_main true logout_is_error = ([ProbeCall.login], ExitStatus.api_error) ∧
      ProbeCall.logout ∉ (psuedo_main true logout_is_error).1) ∧
    psuedo_main false true = ([ProbeCall.login, ProbeCall.logout], ExitStatus.ret (-1)) ∧
    ExitStatus.ret (-1) ≠ ExitStatus.api_error ∧
    psuedo_main false false = ([ProbeCall.login, ProbeCall.logout], ExitStatus.ok) := by
  refine ⟨?_, rfl, by decide, rfl⟩
  intro b
  cases b <;> exact ⟨rfl, by decide⟩

/-- The page-writing routine a category sheet is built with.  In the source
every entry of the `_page` table points at `_maps_page`, and the `KeyError`
fallback of `_write_report` uses `_maps_page` as well. -/
inductive PageAction where
  | maps_page
deriving DecidableEq

/-- One value of the `_page` table: sheet title `t`, sheet-name stem `n`,
page-writing method `m`. -/
structure PageEntry where
  t : String
  n : String
  m : PageAction
deriving DecidableEq

/-- Embedding of the `_page` table (json_maps_to_excel.py lines 284-307). -/
def page : List (String × PageEntry) :=
  [("rulesUnderPortCategory", ⟨"Port Rules", "port", .maps_page⟩),
   ("rulesUnderSwitchStatusCategory", ⟨"Switch Status Rules", "switch_status", .maps_page⟩),
   ("rulesUnderFabricCategory", ⟨"Fabric Rules", "fabric", .maps_page⟩),
   ("rulesUnderFruCategory", ⟨"FRU Rules", "FRU", .maps_page⟩),
   ("rulesUnderSecurityCategory", ⟨"Security Rules", "security", .maps_page⟩),
   ("rulesUnderResourceCategory", ⟨"Resource Rules", "resource", .maps_page⟩),
   ("rulesUnderTrafficOrFlowsCategory", ⟨"Traffic and Flow Rules", "traffic", .maps_page⟩),
   ("rulesUnderFpiCategory", ⟨"Fabric Performance Impact Rules", "fpi", .maps_page⟩),
   ("rulesUnderExtensionTunnelCategory", ⟨"Extension Tunnel Rules", "ext_tunnel", .maps_page⟩),
   ("rulesUnderExtensionGePortCategory", ⟨"GE Port Rules", "ext_ge_port", .maps_page⟩),
   ("rulesUnderBackendPortCategory", ⟨"Backend Port Rules", "backend", .maps_page⟩),
   ("rulesUnderIoLatencyCategory", ⟨"I/O Latency Rules", "latency", .maps_page⟩),
   ("rulesUnderIoPerformanceCategory", ⟨"Performance Rules", "performance", .maps_page⟩),
   ("rulesUnderIoSCSICategory", ⟨"SCSI Rules", "scsi", .maps_page⟩),
   ("rulesUnderAmpHealthCategory", ⟨"AMP Health Rules", "amp_health", .maps_page⟩),
   ("rulesUnderAmpResourceCategory", ⟨"AMP Resource Rules", "amp_resource", .maps_page⟩),
   ("rulesUnderIoHealthCategory", ⟨"I/O Health Rules", "io_health", .maps_page⟩),
   ("uncategorizedDefaultRules", ⟨"Uncategorized Default Rules", "uncat_dflt", .maps_page⟩)]

/-- Dictionary lookup in the `_page` table: models `_page[k1]`, with
`Option.none` standing for the `KeyError` case. -/
def lookupEntry : List (String × PageEntry) → String → Option PageEntry
  | [], _ => Option.none
  | (k0, e) :: rest, key => if k0 = key then some e else lookupEntry rest key

/-- Embedding of the `try/except KeyError` of `_write_report`
(json_maps_to_excel.py lines 353-360): sheet name, sheet title and
page-writing method for a category key at a per-policy sheet index.  A known
key yields `n + '_' + str(sheet_index)`, its title and its method; an unknown
key yields `'unknown_' + str(sheet_index)`, the key itself as title, and
`_maps_page`. -/
def sheetSpec (k1 : String) (sheet_index : Nat) : String × String × PageAction :=
  match lookupEntry page k1 with
  | some e => (e.n ++ "_" ++ toString sheet_index, e.t, e.m)
  | Option.none => ("unknown_" ++ toString sheet_index, k1, .maps_page)

/-- String stored in a rule under a key, used by the sort key; non-dict rules
and non-string values sort as the empty string. -/
def ruleStr (r : PyVal) (key : String) : String :=
  match r with
  | .dict fs =>
    match dictGet fs key with
    | .str s => s
    | _ => ""
  | _ => ""

/-- Strict lexicographic comparison on (groupName, ruleName). -/
def ruleLT (a b : PyVal) : Bool :=
  if ruleStr a "groupName" = ruleStr b "groupName"
  then decide (ruleStr a "ruleName" < ruleStr b "ruleName")
  else decide (ruleStr a "groupName" < ruleStr b "groupName")

/-- Stable insertion of a rule: the rule goes before the first strictly
greater element, after equal ones already present. -/
def insertRule (r : PyVal) : List PyVal → List PyVal
  | [] => [r]
  | x :: xs => if ruleLT x r then x :: insertRule r xs else r :: x :: xs

/-- Modelled from the spec: `gen_util.sort_obj_str(v1, ('groupName',
'ruleName'))` is an external `brcdapi` helper; per the spec, the records of a
category are ordered by a stable sort on the pair of identifying string
fields, ties keeping input order.  Realised as a stable insertion sort over
the list value. -/
def sortRules (v1 : PyVal) : List PyVal :=
  match v1 with
  | .list l => l.foldr insertRule []
  | _ => []

/-- One sheet-creation action recorded from the category loop of
`_write_report`: tab name, index, title, page-writing method, the records
handed to the method, and the table-of-contents hyperlink
`'#' + sheet_name + '!A1'` (json_maps_to_excel.py lines 353-366). -/
structure PageCall where
  sheet_name : String
  sheet_i : Nat
  sheet_title : String
  action : PageAction
  rules : List PyVal
  hyper : String

/-- The `PageCall` generated for one category entry at a sheet index. -/
def categoryCall (k1 : String) (v1 : PyVal) (sheet_index : Nat) : PageCall :=
  ⟨(sheetSpec k1 sheet_index).1, sheet_index, (sheetSpec k1 sheet_index).2.1,
   (sheetSpec k1 sheet_index).2.2, sortRules v1,
   "#" ++ (sheetSpec k1 sheet_index).1 ++ "!A1"⟩

/-- Embedding of the per-policy loop body of `_write_report`
(json_maps_to_excel.py lines 349-375): iterate the `categoryDetailsInfo`
entries in order, incrementing the per-policy `sheet_index` and accumulating
`all_l` (the category key as a section-divider string followed by the sorted
records); after the loop, emit the `'all_' + str(sheet_index)` page built
from `all_l`. -/
def contentPlanGo : Nat → List PyVal → List (String × PyVal) → List PageCall
  | sheet_index, all_l, [] =>
    [⟨"all_" ++ toString sheet_index, sheet_index, "All", .maps_page, all_l,
      "#" ++ ("all_" ++ toString sheet_index) ++ "!A1"⟩]
  | sheet_index, all_l, (k1, v1) :: rest =>
    categoryCall k1 v1 sheet_index ::
    contentPlanGo (sheet_index + 1) (all_l ++ [PyVal.str k1] ++ sortRules v1) rest

/-- Sheet plan of a single policy: the loop starts with `sheet_index = 0` and
an empty `all_l` for every policy object (json_maps_to_excel.py line 336). -/
def contentPlan (content : List (String × PyVal)) : List PageCall :=
  contentPlanGo 0 [] content

/-- Sheet plans of a whole report: one independent plan per policy object of
the input. -/
def writeReportPlan (policies : List (List (String × PyVal))) : List (List PageCall) :=
  policies.map contentPlan

theorem contentPlanGo_getElem (content : List (String × PyVal)) :
    ∀ (start : Nat) (all_l : List PyVal) (i : Nat) (k1 : String) (v1 : PyVal),
    content[i]? = some (k1, v1) →
    (contentPlanGo start all_l content)[i]? = some (categoryCall k1 v1 (start + i)) := by
  induction content with
  | nil =>
    intro start all_l i k1 v1 h
    simp at h
  | cons hd tl ih =>
    intro start all_l i k1 v1 h
    obtain ⟨k0, v0⟩ := hd
    cases i with
    | zero =>
      simp only [List.getElem?_cons_zero, Option.some.injEq] at h
      obtain ⟨rfl, rfl⟩ := Prod.mk.injEq .. ▸ h
      simp [contentPlanGo]
    | succ j =>
      simp only [List.getElem?_cons_succ] at h
      have h2 := ih (start + 1) (all_l ++ [PyVal.str k0] ++ sortRules v0) j k1 v1 h
      simp only [contentPlanGo, List.getElem?_cons_succ]
      rw [h2, show start + 1 + j = start + (j + 1) from by omega]

/-- C6: an input category key absent from the `_page` table does not abort
report generation: its records are planned onto a sheet named
`unknown_N` (N the per-policy sheet index), titled with the unknown key, and
processed by `_maps_page` — the same page-writing routine every known
category uses. -/
theorem c6_unknown_category_sheet (content : List (String × PyVal)) (i : Nat)
    (k1 : String) (v1 : PyVal)
    (hget : content[i]? = some (k1, v1))
    (hunk : lookupEntry page k1 = Option.none) :
    (contentPlan content)[i]? =
      some ⟨"unknown_" ++ toString i, i, k1, PageAction.maps_page, sortRules v1,
        "#" ++ ("unknown_" ++ toString i) ++ "!A1"⟩ ∧
    (∀ p ∈ page, p.2.m = PageAction.maps_page) := by
  refine ⟨?_, by decide⟩
  have h := contentPlanGo_getElem content 0 [] i k1 v1 hget
  rw [contentPlan, h]
  simp [categoryCall, sheetSpec, hunk, Nat.zero_add]

/-- Witness for the C6 theorem at a one-category input whose key is unknown. -/
theorem c6_unknown_category_sheet_witness :
    lookupEntry page "rulesUnderBogusCategory" = Option.none ∧
    (contentPlan [("rulesUnderBogusCategory", PyVal.list [])])[0]? =
      some ⟨"unknown_0", 0, "rulesUnderBogusCategory", PageAction.maps_page, [],
        "#unknown_0!A1"⟩ := by
  refine ⟨rfl, ?_⟩
  exact (c6_unknown_category_sheet [("rulesUnderBogusCategory", PyVal.list [])] 0
    "rulesUnderBogusCategory" (PyVal.list []) rfl rfl).1

/-- C7: the sheet name (and its table-of-contents anchor) is a pure function
of the category key and the sheet's position inside its own policy; the
position counter restarts at 0 for every policy, each policy's plan being
computed independently; hence two policies whose first categories share a key
generate identical sheet names and identical hyperlink anchors — sheet names
are not unique across policies. -/
theorem c7_sheet_names_not_unique :
    (∀ (content : List (String × PyVal)) (i : Nat) (k1 : String) (v1 : PyVal),
      content[i]? = some (k1, v1) →
      ((contentPlan content)[i]?).map (fun pc => (pc.sheet_name, pc.hyper)) =
        some ((sheetSpec k1 i).1, "#" ++ (sheetSpec k1 i).1 ++ "!A1")) ∧
    (∀ (policies : List (List (String × PyVal))) (j : Nat),
      (writeReportPlan policies)[j]? = (policies[j]?).map contentPlan) ∧
    (∀ (k1 : String) (vA vB : PyVal) (rA rB : List (String × PyVal)),
      ((contentPlan ((k1, vA) :: rA))[0]?).map PageCall.sheet_name =
        ((contentPlan ((k1, vB) :: rB))[0]?).map PageCall.sheet_name ∧
      ((contentPlan ((k1, vA) :: rA))[0]?).map PageCall.hyper =
        ((contentPlan ((k1, vB) :: rB))[0]?).map PageCall.hyper) := by
  refine ⟨?_, ?_, ?_⟩
  · intro content i k1 v1 h
    have h2 := contentPlanGo_getElem content 0 [] i k1 v1 h
    rw [contentPlan, h2]
    simp [categoryCall, Nat.zero_add]
  · intro policies j
    simp [writeReportPlan]
  · intro k1 vA vB rA rB
    constructor <;> simp [contentPlan, contentPlanGo, categoryCall]

/-- Witness for the C7 theorem: two one-policy inputs both opening with the
port category produce the sheet name `port_0` and the anchor `#port_0!A1`,
and the report plan of a two-policy input is the two independent policy
plans. -/
theorem c7_sheet_names_not_unique_witness :
    ((contentPlan [("rulesUnderPortCategory", PyVal.list [])])[0]?).map
        (fun pc => (pc.sheet_name, pc.hyper)) = some ("port_0", "#port_0!A1") ∧
    ((contentPlan [("rulesUnderPortCategory", PyVal.list [PyVal.dict []])])[0]?).map
        (fun pc => (pc.sheet_name, pc.hyper)) = some ("port_0", "#port_0!A1") ∧
    (writeReportPlan [[("rulesUnderPortCategory", PyVal.list [])],
        [("rulesUnderPortCategory", PyVal.list [PyVal.dict []])]])[1]? =
      some (contentPlan [("rulesUnderPortCategory", PyVal.list [PyVal.dict []])]) := by
  refine ⟨?_, ?_, ?_⟩
  · exact c7_sheet_names_not_unique.1 [("rulesUnderPortCategory", PyVal.list [])] 0
      "rulesUnderPortCategory" (PyVal.list []) rfl
  · exact c7_sheet_names_not_unique.1
      [("rulesUnderPortCategory", PyVal.list [PyVal.dict []])] 0
      "rulesUnderPortCategory" (PyVal.list [PyVal.dict []]) rfl
  · exact c7_sheet_names_not_unique.2.1
      [[("rulesUnderPortCategory", PyVal.list [])],
       [("rulesUnderPortCategory", PyVal.list [PyVal.dict []])]] 1

/-- Characters of the pattern `.json`. -/
def jsonData : List Char := ['.', 'j', 's', 'o', 'n']

/-- Characters of the replacement `.xlsx`. -/
def xlsxData : List Char := ['.', 'x', 'l', 's', 'x']

/-- Whether a character list starts with the pattern `.json`. -/
def startsDotJson (l : List Char) : Bool :=
  match l with
  | c1 :: c2 :: c3 :: c4 :: c5 :: _ =>
    c1 = '.' && c2 = 'j' && c3 = 's' && c4 = 'o' && c5 = 'n'
  | _ => false

/-- Whether the pattern `.json` occurs anywhere in a character list. -/
def containsDotJson : List Char → Bool
  | [] => false
  | c :: rest => startsDotJson (c :: rest) || containsDotJson rest

/-- Embedding of Python `s.replace('.json', '.xlsx')` at the character level:
scan left to right; on a match of the pattern consume its five characters and
emit the replacement, otherwise emit the character and continue. -/
def pyReplaceJsonXlsx : List Char → List Char
  | [] => []
  | c1 :: rest =>
    if startsDotJson (c1 :: rest)
    then '.' :: 'x' :: 'l' :: 's' :: 'x' :: pyReplaceJsonXlsx (rest.drop 4)
    else c1 :: pyReplaceJsonXlsx rest
termination_by l => l.length
decreasing_by
  · simp [List.length_drop]
    omega
  · simp

/-- Embedding of `args_i.replace('.json', '.xlsx')` (json_maps_to_excel.py
line 429). -/
def replace_json_xlsx (s : String) : String := String.mk (pyReplaceJsonXlsx s.data)

/-- Modelled from the spec: `brcdapi.file.full_file_name(args.i, '.json')` is
an external helper; per the spec the `.json` suffix is appended automatically
to the input file base name. -/
def full_file_name (f : String) : String := f ++ ".json"

/-- Embedding of the value returned by `_get_input` (json_maps_to_excel.py
lines 384-429): the resolved input name `full_file_name(args.i, '.json')` and
the report name `args_i.replace('.json', '.xlsx') if args_o is None else
args_o`. -/
def get_input (args_i : String) (args_o : Option String) : String × String :=
  (full_file_name args_i,
    match args_o with
    | Option.none => replace_json_xlsx (full_file_name args_i)
    | some o => o)

theorem startsDotJson_append (c : Char) (l : List Char)
    (h : startsDotJson (c :: l) = false) :
    startsDotJson (c :: (l ++ jsonData)) = false := by
  rcases l with _ | ⟨a, _ | ⟨b, _ | ⟨d, _ | ⟨e, tl⟩⟩⟩⟩
  · simp [startsDotJson, jsonData]
  · simp [startsDotJson, jsonData]
  · simp [startsDotJson, jsonData]
  · simp [startsDotJson, jsonData]
  · exact h

theorem pyReplace_append (l : List Char) (h : containsDotJson l = false) :
    pyReplaceJsonXlsx (l ++ jsonData) = l ++ xlsxData := by
  induction l with
  | nil => simp [pyReplaceJsonXlsx, startsDotJson, jsonData, xlsxData]
  | cons c l ih =>
    simp only [containsDotJson, Bool.or_eq_false_iff] at h
    have hs2 := startsDotJson_append c l h.1
    simp only [List.cons_append, pyReplaceJsonXlsx, hs2, Bool.false_eq_true, if_false]
    rw [ih h.2]

/-- C9: when the optional `-o` argument is absent, the report name is the
resolved input file name (the input with its automatically appended `.json`
suffix) with `.json` replaced by `.xlsx` — in particular, for an input free
of the text `.json` it is exactly the input followed by `.xlsx`; when `-o` is
given, the report name is exactly its value. -/
theorem c9_report_name (args_i : String) (args_o : Option String) :
    (args_o = Option.none →
      (get_input args_i args_o).2 = replace_json_xlsx (full_file_name args_i) ∧
      (containsDotJson args_i.data = false →
        (get_input args_i args_o).2 = args_i ++ ".xlsx")) ∧
    (∀ o, args_o = some o → (get_input args_i args_o).2 = o) := by
  constructor
  · intro ho
    subst ho
    refine ⟨rfl, ?_⟩
    intro hfree
    obtain ⟨data⟩ := args_i
    show String.mk (pyReplaceJsonXlsx ((String.mk data ++ ".json").data)) =
      String.mk data ++ ".xlsx"
    have hd : (String.mk data ++ ".json").data = data ++ jsonData := rfl
    rw [hd, pyReplace_append data hfree]
    rfl
  · intro o ho
    subst ho
    rfl

/-- Witness for the C9 theorem at the sample input name of the module's debug
block and at an explicit `-o` value. -/
theorem c9_report_name_witness :
    (get_input "rene/mod_moderate_policy_48" Option.none).2 =
      "rene/mod_moderate_policy_48.xlsx" ∧
    (get_input "maps" (some "out.xlsx")).2 = "out.xlsx" := by
  constructor
  · exact ((c9_report_name "rene/mod_moderate_policy_48" Option.none).1 rfl).2 (by decide)
  · exact (c9_report_name "maps" (some "out.xlsx")).2 "out.xlsx" rfl

end Sannav
